import Mathlib

/-!
# Verification of the qdina-bench workload benchmark

A shallow embedding of the benchmark orchestrator (`src/benchmark.py`), the
per-replica runner interface (`src/query_set.py`), the query rewriter and
test-set loader (`src/query_loader.py`), and the replica-descriptor parser
(`src/run.py`), together with proofs and refutations of the specification
claims about them.

Strings are embedded as `List Char`.  Python exceptions are embedded as
`Except String`.  Numeric query timings are embedded as `ℚ` (the source uses
binary floating point only to add up measured wall-clock values; the claims
under study concern which entries are summed, not rounding).  Template ids
and replica indices are embedded as `ℕ` (the data model declares them
zero-based dense naturals).
-/

/-! ## Python semantics helpers -/

/-- Python list subscription `xs[i]` with a non-negative index: returns the
element, or raises `IndexError` when the index is out of range. -/
def pyIndexNat (xs : List α) (i : Nat) : Except String α :=
  match xs[i]? with
  | some x => Except.ok x
  | none => Except.error "IndexError: list index out of range"

/-- A dynamically typed Python value, as far as the embedded code needs:
an integer or a list. -/
inductive PyVal where
  | int : Int → PyVal
  | list : List PyVal → PyVal

/-- Python list subscription `xs[idx]` where the subscript is a dynamically
typed value.  An integer subscript indexes the list (negative values index
from the end); any other value raises
`TypeError: list indices must be integers or slices, not list`. -/
def pyListGet (xs : List α) (idx : PyVal) : Except String α :=
  match idx with
  | PyVal.int i =>
    let j : Int := if i < 0 then (xs.length : Int) + i else i
    match xs[j.toNat]? with
    | some x => if 0 ≤ j then Except.ok x else Except.error "IndexError: list index out of range"
    | none => Except.error "IndexError: list index out of range"
  | PyVal.list _ => Except.error "TypeError: list indices must be integers or slices, not list"

/-- Python list item assignment `xs[idx] = v` under the same subscript
semantics as `pyListGet`. -/
def pySetList (xs : List α) (idx : PyVal) (v : α) : Except String (List α) :=
  match idx with
  | PyVal.int i =>
    let j : Int := if i < 0 then (xs.length : Int) + i else i
    if 0 ≤ j ∧ j.toNat < xs.length then Except.ok (xs.set j.toNat v)
    else Except.error "IndexError: list assignment index out of range"
  | PyVal.list _ => Except.error "TypeError: list indices must be integers or slices, not list"

/-- A Python `for` loop whose iterable expression evaluates to an `int`
raises `TypeError: int object is not iterable`.  The element type of the
(never produced) iteration is phantom. -/
def pyIterInt (_ : Int) : Except String (List Int) :=
  Except.error "TypeError: int object is not iterable"

/-- The characters Python `str.strip` / `str.lstrip` remove by default
(ASCII whitespace; the embedded inputs contain no further unicode spaces). -/
def isPySpace (c : Char) : Bool :=
  c == ' ' || c == '\t' || c == '\n' || c == '\r'

/-- Python `s.split(sep)` for a single-character separator: splitting the
empty string yields `[""]`, and `n` separators yield `n + 1` (possibly
empty) fields. -/
def splitOnChar (sep : Char) : List Char → List (List Char)
  | [] => [[]]
  | c :: rest =>
    match splitOnChar sep rest with
    | [] => [[]]
    | g :: gs => if c = sep then [] :: g :: gs else (c :: g) :: gs

/-- Python `s.strip(chars)`: remove any of the given characters from both
ends of the string. -/
def pyStripSet (chars : List Char) (s : List Char) : List Char :=
  ((s.dropWhile (· ∈ chars)).reverse.dropWhile (· ∈ chars)).reverse

/-- Value of a run of decimal digits. -/
def digitsVal (ds : List Char) : Int :=
  ds.foldl (fun a c => a * 10 + (c.toNat - 48)) 0

/-- Python `int(s)`: strip surrounding whitespace, accept an optional sign
followed by a non-empty digit run, otherwise raise `ValueError`. -/
def pyInt (s : List Char) : Except String Int :=
  let t := ((s.dropWhile isPySpace).reverse.dropWhile isPySpace).reverse
  match t with
  | '-' :: ds =>
    if ds ≠ [] ∧ ds.all Char.isDigit then Except.ok (-(digitsVal ds))
    else Except.error "ValueError: invalid literal for int"
  | '+' :: ds =>
    if ds ≠ [] ∧ ds.all Char.isDigit then Except.ok (digitsVal ds)
    else Except.error "ValueError: invalid literal for int"
  | ds =>
    if ds ≠ [] ∧ ds.all Char.isDigit then Except.ok (digitsVal ds)
    else Except.error "ValueError: invalid literal for int"

/-- Python `s.replace(pat, rep)` for a non-empty pattern: replace the
leftmost occurrences, non-overlapping, scanning left to right.  The fuel
argument (always instantiated with the length of the string, which bounds
the number of scanning steps since every step consumes at least one
character) only makes the recursion structural. -/
def pyReplaceF : Nat → List Char → List Char → List Char → List Char
  | 0, s, _, _ => s
  | fuel + 1, s, pat, rep =>
    match s with
    | [] => []
    | c :: rest =>
      if pat ≠ [] ∧ s.take pat.length = pat then
        rep ++ pyReplaceF fuel (s.drop pat.length) pat rep
      else c :: pyReplaceF fuel rest pat rep

/-- Python `s.replace(pat, rep)` (non-empty pattern). -/
def pyReplaceAll (s pat rep : List Char) : List Char :=
  pyReplaceF s.length s pat rep

/-! ## The query rewriter (`src/query_loader.py`, `add_alias_subquery` and
`update_query_text`) -/

/-- The apostrophe character. -/
def apos : Char := Char.ofNat 39

/-- One attempted match of the regular expression `((from)|,)[  \n]*\(` at
the head of `s` (the character class is a space, a space, and a newline):
the literal `from`, or a comma, then any number of spaces or newlines, then
an opening parenthesis.  Returns the length of the match.  Alternation
tries `from` first, as the regex engine does; the two branches cannot both
match at one position. -/
def regexMatchLen (s : List Char) : Option Nat :=
  let afterTok : Nat → List Char → Option Nat := fun k rest =>
    let ws := rest.takeWhile (fun c => c == ' ' || c == '\n')
    match rest.drop ws.length with
    | '(' :: _ => some (k + ws.length + 1)
    | _ => none
  if s.take 4 = ("from".toList) then afterTok 4 (s.drop 4)
  else
    match s with
    | ',' :: rest => afterTok 1 rest
    | _ => none

/-- `re.finditer` of the pattern above: scan left to right, emit the end
position (the index just after the matched `(`) of each match, and resume
scanning after the end of a match (matches are non-overlapping).  The fuel
argument is always instantiated with the length of the scanned text, which
bounds the number of steps because every step consumes at least one
character. -/
def scanMatches : Nat → List Char → Nat → List Nat
  | 0, _, _ => []
  | fuel + 1, s, pos =>
    match s with
    | [] => []
    | _ :: rest =>
      match regexMatchLen s with
      | some k => (pos + k) :: scanMatches fuel (s.drop k) (pos + k)
      | none => scanMatches fuel rest (pos + 1)

/-- The running parenthesis-depth scan of `add_alias_subquery`: from the
remaining text `s` (the lowered text from position `pos` on) and the current
counter, advance one character at a time, `(` increments, `)` decrements,
and return the position just after the counter returns to `0`.  Reading past
the end of the text raises `IndexError`, exactly as `text[pos]` does. -/
def depthScan : List Char → Nat → Nat → Except String Nat
  | _, pos, 0 => Except.ok pos
  | [], _, _ + 1 => Except.error "IndexError: string index out of range"
  | c :: rest, pos, counter + 1 =>
    depthScan rest (pos + 1)
      (if c = '(' then counter + 2 else if c = ')' then counter else counter + 1)

/-- `query_text[pos:].lstrip().split(" ")[0].split("\n")[0]`: the next
whitespace-trimmed token of the original text after position `pos`,
truncated at the first space and then at the first newline. -/
def nextWord (orig : List Char) (pos : Nat) : List Char :=
  (((orig.drop pos).dropWhile isPySpace).takeWhile (fun c => !(c == ' '))).takeWhile
    (fun c => !(c == '\n'))

/-- The needs-alias test on the next word:
`next_word[0] in [")", ","] or next_word in ["limit", "group", "order", "where"]`.
Python evaluates `next_word[0]` first, so an empty next word raises
`IndexError` before the membership tests are reached. -/
def aliasNeeded (w : List Char) : Except String Bool :=
  match w with
  | [] => Except.error "IndexError: string index out of range"
  | c :: _ =>
    Except.ok (c == ')' || c == ',' || w == ("limit".toList) || w == ("group".toList)
      || w == ("order".toList) || w == ("where".toList))

/-- Process the regex matches of `add_alias_subquery` in order: for each
match end position run the depth scan over the lowered text, inspect the
next word of the original text, and record the end position when the
needs-alias test succeeds. -/
def collectPositions (lowered orig : List Char) : List Nat → Except String (List Nat)
  | [] => Except.ok []
  | m :: rest => do
    let p ← depthScan (lowered.drop m) m 1
    let b ← aliasNeeded (nextWord orig p)
    let others ← collectPositions lowered orig rest
    Except.ok (if b then p :: others else others)

/-- Insert one element into a descending-sorted list, keeping it sorted. -/
def insertDescNat (n : Nat) : List Nat → List Nat
  | [] => [n]
  | m :: rest => if m ≤ n then n :: m :: rest else m :: insertDescNat n rest

/-- Python `sorted(l, reverse=True)`: the positions in descending order. -/
def sortDesc (l : List Nat) : List Nat := l.foldr insertDescNat []

/-- The literal text inserted for each recorded position. -/
def aliasText : List Char := " as alias123 ".toList

/-- `query_text = query_text[:pos] + " as alias123 " + query_text[pos:]`. -/
def insertAt (s : List Char) (p : Nat) : List Char :=
  s.take p ++ aliasText ++ s.drop p

/-- `add_alias_subquery` (src/query_loader.py): lower-case a copy of the
text, find every `from`-or-comma-then-parenthesis match, depth-scan each to
the end of its derived table, record the end positions whose next word
needs an alias, and insert ` as alias123 ` at the recorded positions in
descending order. -/
def add_alias_subquery (query_text : List Char) : Except String (List Char) := do
  let text := query_text.map Char.toLower
  let positions ← collectPositions text query_text (scanMatches text.length text 0)
  Except.ok ((sortDesc positions).foldl insertAt query_text)

/-- `re.sub(r" ([0-9]+) days\)", r" interval '\1 days')", text)`: rewrite
every occurrence of a space, a digit run, and ` days)` into the
interval-literal form, scanning left to right and resuming after each
replaced occurrence.  The fuel argument is always instantiated with the
length of the text, which bounds the number of steps.  (The digit run is
maximal; no shorter run can match since the pattern requires a space right
after it.) -/
def daysSub : Nat → List Char → List Char
  | 0, s => s
  | fuel + 1, s =>
    match s with
    | [] => []
    | c :: rest =>
      if c = ' ' ∧ (rest.takeWhile Char.isDigit).length > 0 ∧
          (rest.drop (rest.takeWhile Char.isDigit).length).take 6 = (" days)".toList) then
        let ds := rest.takeWhile Char.isDigit
        (" interval ".toList ++ [apos] ++ ds ++ (" days".toList) ++ [apos, ')'])
          ++ daysSub fuel (rest.drop (ds.length + 6))
      else c :: daysSub fuel rest

/-- `update_query_text` (src/query_loader.py): collapse `;\nlimit ` into
` limit `, drop `limit -1`, rewrite day-interval literals, then alias
derived tables. -/
def update_query_text (text : List Char) : Except String (List Char) := do
  let t := pyReplaceAll text (";\nlimit ".toList) (" limit ".toList)
  let t := pyReplaceAll t ("limit -1".toList) []
  let t := daysSub t.length t
  add_alias_subquery t

/-! ## The test-set loader (`src/query_loader.py`, `load_test_set_queries`)

The directory of `.sql` files is embedded as the list of the matched file
basenames plus a reading function from basename to the file's lines (each
line keeping its trailing newline, as `readlines` does).  `list(set(...))`
is embedded as `List.dedup`; Python leaves the order of a set unspecified,
and no claim under study depends on it. -/

/-- The body of the inner loop of `load_test_set_queries` for one
`query_num`: open `{template}_{query_num}.sql`, join all lines but the
first with spaces, replace newlines and tabs by spaces, rewrite the query,
and append the query text and the zero-based template id. -/
def loadInner (readFile : List Char → List (List Char)) (template : List Char) :
    List Int → (List (List Char) × List Int) → Except String (List (List Char) × List Int)
  | [], acc => Except.ok acc
  | query_num :: rest, (qs, ts) => do
    let lines := readFile (template ++ ['_'] ++ (toString query_num).toList ++ (".sql".toList))
    let query := List.intercalate (" ".toList) (lines.drop 1)
    let query := pyReplaceAll query ("\n".toList) (" ".toList)
    let query := pyReplaceAll query ("\t".toList) (" ".toList)
    let query ← update_query_text query
    let t ← pyInt template
    loadInner readFile template rest (qs ++ [query], ts ++ [t - 1])

/-- The outer loop of `load_test_set_queries`:
`for i, template in enumerate(template_strs): for query_num in query_nums[i]: ...`.
`query_nums[i]` is an `int` (an element of `list(set(int(...)))`), so the
inner `for` statement raises `TypeError: int object is not iterable` as
soon as it is reached. -/
def loadLoop (readFile : List Char → List (List Char)) (query_nums : List Int) :
    Nat → List (List Char) → (List (List Char) × List Int) →
    Except String (List (List Char) × List Int)
  | _, [], acc => Except.ok acc
  | i, template :: rest, acc => do
    let qn ← pyIndexNat query_nums i
    let nums ← pyIterInt qn
    let acc' ← loadInner readFile template nums acc
    loadLoop readFile query_nums (i + 1) rest acc'

/-- `load_test_set_queries` (src/query_loader.py): from the basenames of the
`.sql` files in the directory, split each on `_`, collect the distinct
template strings and the distinct instance numbers, then run the loading
loop.  (`t[0]` never raises because `split` always returns at least one
field; `q[1]` raises `IndexError` for a name with no underscore.) -/
def load_test_set_queries (queryNames : List (List Char))
    (readFile : List Char → List (List Char)) :
    Except String (List (List Char) × List Int) := do
  let name_parts := queryNames.map (splitOnChar '_')
  let template_strs := (name_parts.map (fun t => t.headD [])).dedup
  let parsed ← name_parts.mapM (fun q => do
    let s ← pyIndexNat q 1
    pyInt (pyStripSet (".sql".toList) s))
  let query_nums := parsed.dedup
  loadLoop readFile query_nums 0 template_strs ([], [])

/-! ## The orchestrator (`src/benchmark.py`, class `Benchmark`)

The externally-observable database work (cursor `execute` calls) is
embedded as the list of issued SQL command strings; connections themselves
are external collaborators (src/connection.py is not part of the corpus
under `src/`).  The state of a `Benchmark` object is embedded as a
structure; `run` takes the result of `random.shuffle` (the new contents of
`self.order`) and the runner-reported timing lists as explicit inputs,
since randomness and the database are external. -/

/-- An index-plan entry: `(table, columns)`, as produced by
`get_index_config` in src/run.py and consumed by `_create_indexes`. -/
abbrev IndexEntry := String × List String

/-- `Benchmark._create_indexes`, inner loop over one replica's entries with
the running global counter: each entry increments `indexes_created` and
issues `CREATE INDEX idx_{indexes_created} ON {table} ({columns})`. -/
def createPerReplica (counter : Nat) : List IndexEntry → List String
  | [] => []
  | idx :: rest =>
    ("CREATE INDEX idx_" ++ toString (counter + 1) ++ " ON " ++ idx.1 ++ " ("
        ++ String.intercalate "," idx.2 ++ ")")
      :: createPerReplica (counter + 1) rest

/-- `Benchmark._create_indexes`, outer loop over replicas, threading the
global counter across the whole plan. -/
def createIndexAux (counter : Nat) : List (List IndexEntry) → List String
  | [] => []
  | cfg :: rest => createPerReplica counter cfg ++ createIndexAux (counter + cfg.length) rest

/-- The full sequence of `CREATE INDEX` statements issued by
`Benchmark._create_indexes` for an index plan. -/
def createIndexCommands (config : List (List IndexEntry)) : List String :=
  createIndexAux 0 config

/-- `Benchmark.destroy_indexes`, inner loop: each entry increments
`indexes_destroyed` and issues `DROP INDEX idx_{indexes_destroyed}`. -/
def destroyPerReplica (counter : Nat) : List IndexEntry → List String
  | [] => []
  | _ :: rest => ("DROP INDEX idx_" ++ toString (counter + 1)) :: destroyPerReplica (counter + 1) rest

/-- `Benchmark.destroy_indexes`, outer loop over replicas. -/
def destroyIndexAux (counter : Nat) : List (List IndexEntry) → List String
  | [] => []
  | cfg :: rest => destroyPerReplica counter cfg ++ destroyIndexAux (counter + cfg.length) rest

/-- The full sequence of `DROP INDEX` statements issued by
`Benchmark.destroy_indexes` for an index plan. -/
def destroyIndexCommands (config : List (List IndexEntry)) : List String :=
  destroyIndexAux 0 config

/-- The state of a `Benchmark` object (src/benchmark.py `__init__`):
the corpus, the routing table, the index plan, the replica count (the
connections themselves are external), the per-template timing vector and
the workload ordering. -/
structure BState where
  queries : List String
  templates : List Nat
  routes : List Nat
  config : List (List IndexEntry)
  nReplicas : Nat
  nQueries : Nat
  nTemplates : Nat
  times : List ℚ
  order : List Nat
  createTrace : List String
deriving Repr

/-- `Benchmark.__init__`: store the corpus, compute
`n_templates = len(list(set(templates)))`, zero-initialize the timing
vector to that length, set the workload order to `range(n_queries)`, and,
when `create_indexes` is set, issue the `CREATE INDEX` statements (when it
is not, only a warning is logged).  No validation of the routing table (or
of anything else) is performed. -/
def benchmarkInitState (queries : List String) (templates routes : List Nat)
    (config : List (List IndexEntry)) (nReplicas : Nat) (create_indexes : Bool) : BState :=
  { queries := queries
    templates := templates
    routes := routes
    config := config
    nReplicas := nReplicas
    nQueries := queries.length
    nTemplates := templates.dedup.length
    times := List.replicate templates.dedup.length 0
    order := List.range queries.length
    createTrace := if create_indexes then createIndexCommands config else [] }

/-- `Benchmark.__init__` as a fallible constructor: the source raises
nothing itself (connection establishment is an external collaborator), so
construction always succeeds. -/
def benchmarkInit (queries : List String) (templates routes : List Nat)
    (config : List (List IndexEntry)) (nReplicas : Nat) (create_indexes : Bool) :
    Except String BState :=
  Except.ok (benchmarkInitState queries templates routes config nReplicas create_indexes)

/-- One step of the partition loop in `Benchmark.run`:
`query = self.queries[query_num]; template = self.templates[query_num];`
`replica = self.routes[template];`
`replica_workloads[replica].append(query); replica_templates[replica].append(template)`.
Each subscription raises `IndexError` when out of range.  The element type
of the workload is generic: the source never inspects the query payload
here. -/
def partitionStep (queries : List α) (templates routes : List Nat)
    (acc : List (List α) × List (List Nat)) (query_num : Nat) :
    Except String (List (List α) × List (List Nat)) := do
  let query ← pyIndexNat queries query_num
  let template ← pyIndexNat templates query_num
  let replica ← pyIndexNat routes template
  let ws ← pyIndexNat acc.1 replica
  let ts ← pyIndexNat acc.2 replica
  Except.ok (acc.1.set replica (ws ++ [query]), acc.2.set replica (ts ++ [template]))

/-- The partition loop of `Benchmark.run` over the (shuffled) order. -/
def runPartitionAux (queries : List α) (templates routes : List Nat)
    (acc : List (List α) × List (List Nat)) : List Nat →
    Except String (List (List α) × List (List Nat))
  | [] => Except.ok acc
  | n :: rest =>
    match partitionStep queries templates routes acc n with
    | Except.error e => Except.error e
    | Except.ok acc' => runPartitionAux queries templates routes acc' rest

/-- The partition step of `Benchmark.run`: distribute the instances of the
shuffled order over `replica_workloads` / `replica_templates`, both
initialized to one empty list per replica. -/
def runPartition (queries : List α) (templates routes : List Nat) (nReplicas : Nat)
    (order : List Nat) : Except String (List (List α) × List (List Nat)) :=
  runPartitionAux queries templates routes
    (List.replicate nReplicas [], List.replicate nReplicas []) order

/-- The inner aggregation loop of `Benchmark.run` for one queue:
`for i, time in enumerate(info['times']):`
`  template = replica_templates[i]`
`  self.times[template] += time`.
`replica_templates` is the per-replica list of template lists, so
`replica_templates[i]` is itself a list (or an `IndexError` when the
instance position `i` reaches the replica count), and subscripting
`self.times` with it raises `TypeError`. -/
def aggregateQueue (replica_templates : List (List Nat)) :
    List ℚ → Nat → List ℚ → Except String (List ℚ)
  | [], _, times => Except.ok times
  | t :: rest, i, times => do
    let template ← pyIndexNat replica_templates i
    let tv := PyVal.list (template.map (fun n => PyVal.int n))
    let old ← pyListGet times tv
    let times' ← pySetList times tv (old + t)
    aggregateQueue replica_templates rest (i + 1) times'

/-- The aggregation loop of `Benchmark.run` over every timer queue, in
queue order, threading `self.times`. -/
def aggregateAll (replica_templates : List (List Nat)) :
    List (List ℚ) → List ℚ → Except String (List ℚ)
  | [], times => Except.ok times
  | q :: rest, times => do
    let times' ← aggregateQueue replica_templates q 0 times
    aggregateAll replica_templates rest times'

/-- The parameters of `QuerySet.__init__` after `self`
(src/query_set.py); all six are required, none has a default. -/
def querySetInitParams : List String :=
  ["num", "queries", "templates", "replica", "timer_queue", "explain_plans"]

/-- The number of positional arguments `Benchmark.run` passes when it
constructs each `QuerySet`
(`QuerySet(i, replica_workloads[i], replica_templates[i], replica, timer_queues[i])`,
src/benchmark.py). -/
def querySetCallArgCount : Nat := 5

/-- `Benchmark.run` (src/benchmark.py): install the shuffle result in
`self.order`, partition the workload, then construct one `QuerySet` per
replica and run them, then read each timer queue and aggregate.  The
shuffle result, the runner-reported per-instance timing lists and the two
wall-clock readings are explicit inputs (randomness, subprocesses and the
database are external).  With at least one replica, the `QuerySet`
constructor call supplies fewer positional arguments than
`QuerySet.__init__` requires, which raises `TypeError` before any runner
starts; with zero replicas no `QuerySet` is constructed and the aggregation
loop runs over zero queues.  The function returns the produced result (or
the raised error) together with the final object state. -/
def benchmarkRun (s : BState) (newOrder : List Nat) (queueTimes : List (List ℚ))
    (tic toc : ℚ) : Except String (ℚ × List ℚ) × BState :=
  let s1 : BState := { s with order := newOrder }
  match runPartition s1.queries s1.templates s1.routes s1.nReplicas s1.order with
  | Except.error e => (Except.error e, s1)
  | Except.ok (_, replicaTemplates) =>
    if s1.nReplicas = 0 then
      match aggregateAll replicaTemplates [] s1.times with
      | Except.error e => (Except.error e, s1)
      | Except.ok times1 => (Except.ok (toc - tic, times1), { s1 with times := times1 })
    else if querySetCallArgCount = querySetInitParams.length then
      match aggregateAll replicaTemplates queueTimes s1.times with
      | Except.error e => (Except.error e, s1)
      | Except.ok times1 => (Except.ok (toc - tic, times1), { s1 with times := times1 })
    else
      (Except.error "TypeError: QuerySet.__init__ missing 1 required positional argument: explain_plans", s1)

/-! ## The replica-descriptor parser (`src/run.py`, `get_replicas`) -/

/-- A replica descriptor (src/replica.py is an external data holder; the
fields and their order are fixed by `get_replicas` and §6 of the design). -/
structure PyReplica where
  id : List Char
  hostname : List Char
  port : List Char
  dbname : List Char
  user : List Char
  password : List Char
deriving Repr, DecidableEq

/-- The per-line body of `get_replicas` (src/run.py): split the line on
commas and store the fields positionally, without any trimming, as
`Replica(id=fields[0], ..., password=fields[5])`. -/
def parseReplicaLine (line : List Char) : Except String PyReplica := do
  let fields := splitOnChar ',' line
  let f0 ← pyIndexNat fields 0
  let f1 ← pyIndexNat fields 1
  let f2 ← pyIndexNat fields 2
  let f3 ← pyIndexNat fields 3
  let f4 ← pyIndexNat fields 4
  let f5 ← pyIndexNat fields 5
  Except.ok { id := f0, hostname := f1, port := f2, dbname := f3, user := f4, password := f5 }

/-- `get_replicas` (src/run.py): one `Replica` per line of the descriptor
file, in file order.  The lines are as `readlines` yields them: every line
but possibly the last ends with its newline character. -/
def get_replicas (lines : List (List Char)) : Except String (List PyReplica) :=
  lines.mapM parseReplicaLine

/-! ## Claim theorems -/

/-- C1.  The claim says `per_template_times[t]` ends up the sum of the
reported times of the instances of template `t`.  The aggregation loop of
`Benchmark.run` instead binds `template = replica_templates[i]`, where `i`
enumerates the positions inside one queue's timing list and
`replica_templates` is the list of per-replica template lists, so
`template` is itself a list and `self.times[template] += time` raises
`TypeError`.  On the simplest workload — one replica, one query of
template `0`, reported time `2` — the aggregation raises instead of
producing `per_template_times = [2]`. -/
theorem C1_run_aggregation_type_error :
    aggregateAll [[0]] [[(2 : ℚ)]] [0] =
      Except.error "TypeError: list indices must be integers or slices, not list" := by
  rfl

/-- C2.  The claim says `run()` constructs one `QuerySet` per replica and
runs them all to completion.  `QuerySet.__init__` requires six arguments
after `self` (the last being `explain_plans`, with no default), but
`Benchmark.run` passes only five, so with any non-empty replica list the
very first `QuerySet(...)` call raises `TypeError` and no runner is ever
constructed or run. -/
theorem C2_queryset_arity_type_error :
    querySetInitParams.length = 6 ∧ querySetCallArgCount = 5 ∧
    (benchmarkRun (benchmarkInitState ["q"] [0] [0] [] 1 false) [0] [] 0 0).1 =
      Except.error "TypeError: QuerySet.__init__ missing 1 required positional argument: explain_plans" := by
  exact ⟨rfl, rfl, rfl⟩

/-- C4.  On the input `select * from (select a from t) where a > 1` the
rewriter returns `select * from (select a from t) as alias123  where a > 1`
(the literal ` as alias123 ` is inserted at the position just after the
parenthesis depth, started at 1, returns to 0); and, in general, applying
the recorded insertions in descending order makes every insertion land at
its original offset: inserting at `p2` first and then at `p1 ≤ p2` leaves
the first `p1` characters untouched and is the simultaneous two-point
insertion. -/
theorem C4_rewriter_alias_example :
    update_query_text ("select * from (select a from t) where a > 1".toList) =
      Except.ok ("select * from (select a from t) as alias123  where a > 1".toList) ∧
    ∀ (s : List Char) (p1 p2 : Nat), p1 ≤ p2 → p2 ≤ s.length →
      insertAt (insertAt s p2) p1 =
        s.take p1 ++ aliasText ++ (s.drop p1).take (p2 - p1) ++ aliasText ++ s.drop p2 := by
  constructor
  · rfl
  · intro s p1 p2 h12 h2s
    have hlen : p1 ≤ (s.take p2).length := by
      simpa [List.length_take, Nat.min_eq_left h2s] using h12
    unfold insertAt
    rw [List.append_assoc (List.take p2 s), List.take_append_of_le_length hlen,
      List.take_take, Nat.min_eq_left h12, List.drop_append_of_le_length hlen,
      List.drop_take]
    simp [List.append_assoc]

/-- Witness for C4: the general insertion clause applied at the concrete
input `s = "abcde"`, `p1 = 1`, `p2 = 3`. -/
theorem C4_rewriter_alias_example_witness :
    (1 : Nat) ≤ 3 ∧ 3 ≤ ("abcde".toList).length ∧
    insertAt (insertAt ("abcde".toList) 3) 1 =
      ("abcde".toList).take 1 ++ aliasText ++ (("abcde".toList).drop 1).take (3 - 1)
        ++ aliasText ++ ("abcde".toList).drop 3 :=
  ⟨by decide, by decide, C4_rewriter_alias_example.2 _ 1 3 (by decide) (by decide)⟩

/-- C5, counterexample.  The claim says that when the matched derived
table's closing parenthesis is followed only by whitespace the rewriter
records the end position and returns the text with ` as alias123 `
inserted there.  On `select * from (select a from t)` (the derived table
ends the query) the rewriter does not return that rewritten text. -/
theorem C5_cex :
    add_alias_subquery ("select * from (select a from t)".toList) ≠
      Except.ok ("select * from (select a from t) as alias123 ".toList) := by
  intro h
  rw [show add_alias_subquery ("select * from (select a from t)".toList) =
      Except.error "IndexError: string index out of range" from rfl] at h
  exact Except.noConfusion h

/-- C5, amended.  When the whitespace-trimmed token following the matched
derived table is empty, `add_alias_subquery` does not insert an alias:
`next_word[0]` is evaluated before the membership tests, so the empty next
word raises `IndexError: string index out of range` and the rewrite fails
(the empty-token case listed in the spec is not handled by the code). -/
theorem C5_amended :
    add_alias_subquery ("select * from (select a from t)".toList) =
      Except.error "IndexError: string index out of range" := by
  rfl

/-- C6, counterexample.  The claim says constructing the orchestrator over
a corpus with a routing gap fails fast, during construction.
`Benchmark.__init__` performs no validation of the routing table, so the
construction over the corpus with the single template `5` and the
one-entry routing table `[0]` succeeds. -/
theorem C6_cex : (benchmarkInit ["q"] [5] [0] [] 1 false).isOk = true := rfl

/-- C6, amended.  Construction never fails (for any inputs,
`Benchmark.__init__` raises nothing); a routing gap instead surfaces
during `run()`, where the partition step's `self.routes[template]` lookup
raises `IndexError` at the first instance whose template has no routing
entry — here the corpus with template `5` and routing table `[0]`. -/
theorem C6_amended :
    (∀ qs ts rs cfg n b, (benchmarkInit qs ts rs cfg n b).isOk = true) ∧
    (benchmarkRun (benchmarkInitState ["q"] [5] [0] [] 1 false) [0] [] 0 0).1 =
      Except.error "IndexError: list index out of range" :=
  ⟨fun _ _ _ _ _ _ => rfl, rfl⟩

/-- C9.  The claim says `load_test_set_queries` returns one
`(rewritten query, 0-based template)` pair per file.  For any non-empty
directory — here the single file `1_1.sql` — `query_nums` is a list of
`int`s, and the inner loop `for query_num in query_nums[i]` iterates an
`int`, so the function raises `TypeError: int object is not iterable`
before opening a single file. -/
theorem C9_load_type_error :
    load_test_set_queries [("1_1.sql".toList)] (fun _ => []) =
      Except.error "TypeError: int object is not iterable" := by
  rfl

/-- The `CREATE INDEX` statement text for the `n`-th (1-based) entry. -/
def createCmd (n : Nat) (idx : IndexEntry) : String :=
  "CREATE INDEX idx_" ++ toString n ++ " ON " ++ idx.1 ++ " ("
    ++ String.intercalate "," idx.2 ++ ")"

/-- Closed form of the inner creation loop: entries of one replica are
numbered consecutively from the incoming counter. -/
theorem createPerReplica_eq (cfg : List IndexEntry) :
    ∀ c, createPerReplica c cfg = (List.enumFrom c cfg).map (fun p => createCmd (p.1 + 1) p.2) := by
  induction cfg with
  | nil => intro c; rfl
  | cons x rest ih =>
    intro c
    simp only [createPerReplica, List.enumFrom_cons, List.map_cons, ih, createCmd]

/-- Closed form of `_create_indexes`: the whole plan is numbered
consecutively from the incoming counter, across replica boundaries. -/
theorem createIndexAux_eq (config : List (List IndexEntry)) :
    ∀ c, createIndexAux c config =
      (List.enumFrom c config.flatten).map (fun p => createCmd (p.1 + 1) p.2) := by
  induction config with
  | nil => intro c; rfl
  | cons cfg rest ih =>
    intro c
    simp only [createIndexAux, createPerReplica_eq, ih, List.flatten_cons,
      List.enumFrom_append, List.map_append]

/-- Closed form of the inner destruction loop. -/
theorem destroyPerReplica_eq (cfg : List IndexEntry) :
    ∀ c, destroyPerReplica c cfg =
      (List.range' (c + 1) cfg.length).map (fun i => "DROP INDEX idx_" ++ toString i) := by
  induction cfg with
  | nil => intro c; rfl
  | cons x rest ih =>
    intro c
    simp only [destroyPerReplica, List.length_cons, List.range'_succ, List.map_cons, ih]

/-- Closed form of `destroy_indexes`. -/
theorem destroyIndexAux_eq (config : List (List IndexEntry)) :
    ∀ c, destroyIndexAux c config =
      (List.range' (c + 1) config.flatten.length).map (fun i => "DROP INDEX idx_" ++ toString i) := by
  induction config with
  | nil => intro c; rfl
  | cons cfg rest ih =>
    intro c
    have hr := (List.range'_append (c + 1) cfg.length rest.flatten.length 1).symm
    rw [Nat.one_mul] at hr
    simp only [destroyIndexAux, destroyPerReplica_eq, ih, List.flatten_cons,
      List.length_append, Nat.add_comm cfg.length rest.flatten.length, hr, List.map_append,
      Nat.add_right_comm c cfg.length 1]

/-- C7.  For an index plan with `k` entries in total, `_create_indexes`
issues `CREATE INDEX` statements named exactly `idx_1 … idx_k`, numbered
sequentially across the whole plan in plan iteration order (the counter is
global, not per replica), and `destroy_indexes` issues `DROP INDEX` for
exactly the same names `idx_1 … idx_k` in the same order, so the dropped
names are the created names. -/
theorem C7_index_naming (config : List (List IndexEntry)) :
    createIndexCommands config =
      (config.flatten.enum).map (fun p => createCmd (p.1 + 1) p.2) ∧
    destroyIndexCommands config =
      (List.range config.flatten.length).map (fun i => "DROP INDEX idx_" ++ toString (i + 1)) := by
  constructor
  · rw [createIndexCommands, createIndexAux_eq, List.enum_eq_enumFrom]
  · rw [destroyIndexCommands, destroyIndexAux_eq, List.range'_eq_map_range, List.map_map]
    refine List.map_congr_left ?_
    intro i _
    simp [Nat.add_comm 1 i]

/-- Bind on a succeeded `Except` computation. -/
theorem exceptBindOk (a : α) (f : α → Except ε β) : (Except.ok a >>= f) = f a := rfl

/-- Bind on a failed `Except` computation propagates the error. -/
theorem exceptBindErr (e : ε) (f : α → Except ε β) :
    ((Except.error e : Except ε α) >>= f) = Except.error e := rfl

/-- The aggregation loop for one queue never changes the timing vector when
it completes: a non-empty timing list faults at its first entry (before any
write), and an empty one writes nothing. -/
theorem aggregateQueue_ok (rt : List (List Nat)) :
    ∀ (q : List ℚ) (i : Nat) (times times' : List ℚ),
      aggregateQueue rt q i times = Except.ok times' → times' = times := by
  intro q i times times' h
  cases q with
  | nil =>
    simp only [aggregateQueue] at h
    exact (Except.ok.injEq _ _ ▸ h).symm
  | cons t rest =>
    rw [aggregateQueue] at h
    cases hrt : rt[i]? with
    | none => simp [pyIndexNat, hrt, exceptBindErr] at h
    | some template =>
      simp [pyIndexNat, hrt, pyListGet, exceptBindOk, exceptBindErr] at h

/-- The whole aggregation never changes the timing vector when it
completes. -/
theorem aggregateAll_ok (rt : List (List Nat)) :
    ∀ (queues : List (List ℚ)) (times times' : List ℚ),
      aggregateAll rt queues times = Except.ok times' → times' = times := by
  intro queues
  induction queues with
  | nil =>
    intro times times' h
    simp only [aggregateAll] at h
    exact (Except.ok.injEq _ _ ▸ h).symm
  | cons q rest ih =>
    intro times times' h
    rw [aggregateAll] at h
    cases hq : aggregateQueue rt q 0 times with
    | error e => simp [hq, exceptBindErr] at h
    | ok times1 =>
      have h1 := aggregateQueue_ok rt q 0 times times1 hq
      simp only [hq, exceptBindOk] at h
      have h2 := ih times1 times' h
      rw [h2, h1]

/-- C8.  The per-template timing vector is created with length
`n_templates = len(set(templates))` and all entries zero, and `run()`
leaves it unchanged in every case — the aggregation step after the barrier
join is the only write site of `self.times` in the source, and it either
has nothing to write (zero queues) or faults before its first write — so at
the start of every `run()` call, including a second call on the same
object, the vector is the all-zero vector of that length. -/
theorem C8_times_vector :
    (∀ (qs : List String) (ts rs : List Nat) (cfg : List (List IndexEntry)) (n : Nat) (b : Bool),
      (benchmarkInitState qs ts rs cfg n b).times.length
          = (benchmarkInitState qs ts rs cfg n b).nTemplates ∧
      (benchmarkInitState qs ts rs cfg n b).times
          = List.replicate (benchmarkInitState qs ts rs cfg n b).nTemplates 0) ∧
    (∀ (s : BState) (newOrder : List Nat) (queueTimes : List (List ℚ)) (tic toc : ℚ),
      ((benchmarkRun s newOrder queueTimes tic toc).2).times = s.times) := by
  constructor
  · intro qs ts rs cfg n b
    exact ⟨List.length_replicate _ _, rfl⟩
  · intro s newOrder queueTimes tic toc
    rw [benchmarkRun]
    cases hp : runPartition s.queries s.templates s.routes s.nReplicas newOrder with
    | error e => rfl
    | ok p =>
      cases p with
      | mk workloads replicaTemplates =>
        by_cases h0 : s.nReplicas = 0
        · simp only [h0, if_pos rfl]
          rfl
        · simp only [if_neg h0]
          have harity : ¬(querySetCallArgCount = querySetInitParams.length) := by decide
          simp only [if_neg harity]

/-- The unfolding equation of `splitOnChar` on a cons cell. -/
theorem splitOnChar_cons (sep c : Char) (rest : List Char) :
    splitOnChar sep (c :: rest) =
      match splitOnChar sep rest with
      | [] => [[]]
      | g :: gs => if c = sep then [] :: g :: gs else (c :: g) :: gs := rfl

/-- `split` never yields an empty field list. -/
theorem splitOnChar_ne_nil (sep : Char) (l : List Char) : splitOnChar sep l ≠ [] := by
  cases l with
  | nil => simp [splitOnChar]
  | cons c rest =>
    rw [splitOnChar_cons]
    cases h : splitOnChar sep rest with
    | nil => simp
    | cons g gs => by_cases hc : c = sep <;> simp [hc]

/-- Splitting keeps the final character of the string at the end of the
final field, provided that character is not the separator. -/
theorem splitOnChar_getLast (sep c : Char) (hcs : c ≠ sep) :
    ∀ l : List Char, l.getLast? = some c →
      ∃ g, (splitOnChar sep l).getLast? = some g ∧ g.getLast? = some c := by
  intro l
  induction l with
  | nil => intro h; simp at h
  | cons c0 rest ih =>
    intro h
    cases rest with
    | nil =>
      rw [List.getLast?_singleton, Option.some.injEq] at h
      subst h
      have hc0 : ¬(c0 = sep) := hcs
      refine ⟨[c0], ?_, by simp⟩
      simp [splitOnChar, hc0]
    | cons c1 rest1 =>
      have h' : (c1 :: rest1).getLast? = some c := by
        rwa [List.getLast?_cons_cons] at h
      obtain ⟨g', hg1, hg2⟩ := ih h'
      cases hs : splitOnChar sep (c1 :: rest1) with
      | nil => exact absurd hs (splitOnChar_ne_nil sep (c1 :: rest1))
      | cons g gs =>
        rw [hs] at hg1
        have hsplit : splitOnChar sep (c0 :: c1 :: rest1) =
            if c0 = sep then [] :: g :: gs else (c0 :: g) :: gs := by
          rw [splitOnChar_cons, hs]
        by_cases hc0 : c0 = sep
        · refine ⟨g', ?_, hg2⟩
          rw [hsplit, if_pos hc0, List.getLast?_cons_cons]
          exact hg1
        · cases gs with
          | nil =>
            rw [List.getLast?_singleton, Option.some.injEq] at hg1
            subst hg1
            cases g with
            | nil => simp at hg2
            | cons gh gt =>
              refine ⟨c0 :: gh :: gt, ?_, ?_⟩
              · rw [hsplit, if_neg hc0, List.getLast?_singleton]
              · rwa [List.getLast?_cons_cons]
          | cons gs1 gs2 =>
            refine ⟨g', ?_, hg2⟩
            rw [hsplit, if_neg hc0, List.getLast?_cons_cons]
            rwa [List.getLast?_cons_cons] at hg1

/-- C10.  `get_replicas` splits each descriptor line on commas and stores
the fields into the `Replica` positionally with no trimming, so for a
descriptor line with its six fields that is terminated by a newline
character, parsing succeeds and the stored password — the sixth field —
still ends with that newline character. -/
theorem C10_password_newline (line : List Char)
    (h6 : (splitOnChar ',' line).length = 6)
    (hnl : line.getLast? = some '\n') :
    ∃ r, parseReplicaLine line = Except.ok r ∧ r.password.getLast? = some '\n' := by
  obtain ⟨g, hg1, hg2⟩ := splitOnChar_getLast ',' '\n' (by decide) line hnl
  cases hs : splitOnChar ',' line with
  | nil => exact absurd hs (splitOnChar_ne_nil ',' line)
  | cons f0 r0 =>
    rw [hs] at hg1 h6
    cases r0 with
    | nil => simp at h6
    | cons f1 r1 =>
      cases r1 with
      | nil => simp at h6
      | cons f2 r2 =>
        cases r2 with
        | nil => simp at h6
        | cons f3 r3 =>
          cases r3 with
          | nil => simp at h6
          | cons f4 r4 =>
            cases r4 with
            | nil => simp at h6
            | cons f5 r5 =>
              cases r5 with
              | cons f6 r6 => simp at h6
              | nil =>
                have hg : g = f5 := by
                  simp only [List.getLast?_cons_cons, List.getLast?_singleton,
                    Option.some.injEq] at hg1
                  exact hg1.symm
                subst hg
                refine ⟨⟨f0, f1, f2, f3, f4, g⟩, ?_, hg2⟩
                simp only [parseReplicaLine]
                rw [hs]
                rfl

/-- Witness for C10: the concrete descriptor line `1,host,5432,db,user,pw`
terminated by a newline. -/
theorem C10_password_newline_witness :
    (splitOnChar ',' ("1,host,5432,db,user,pw\n".toList)).length = 6 ∧
    ("1,host,5432,db,user,pw\n".toList).getLast? = some '\n' ∧
    ∃ r, parseReplicaLine ("1,host,5432,db,user,pw\n".toList) = Except.ok r ∧
      r.password.getLast? = some '\n' :=
  ⟨by decide, by decide, C10_password_newline _ (by decide) (by decide)⟩

/-- The replica that `Benchmark.run` routes template `templates[n]` of
instance `n` to: `self.routes[self.templates[query_num]]`. -/
def routeOf (templates routes : List Nat) (n : Nat) : Nat :=
  routes.getD (templates.getD n 0) 0

/-- An in-range Python subscription succeeds. -/
theorem pyIndexNat_eq_ok {α : Type} (xs : List α) (i : Nat) (d : α) (h : i < xs.length) :
    pyIndexNat xs i = Except.ok (xs.getD i d) := by
  simp [pyIndexNat, List.getElem?_eq_getElem h, List.getD_eq_getElem?_getD]

/-- Reading every position of a list back in order yields the list. -/
theorem map_getD_range {α : Type} (l : List α) (d : α) :
    (List.range l.length).map (fun r => l.getD r d) = l := by
  apply List.ext_getElem
  · simp
  · intro n h1 h2
    simp [List.getD_eq_getElem?_getD, List.getElem?_eq_getElem h2]

/-- Closed form of the partition loop, with the corpus instantiated by the
instance indices themselves (`queries = range(len(templates))`, so the
entry appended for instance `n` is `n`; the partition logic never inspects
the query payload).  Starting from accumulators of equal length, the loop
succeeds and appends to each replica's two lists exactly the instances the
routing table sends there, in traversal order, and their templates. -/
theorem runPartitionAux_eq (templates routes : List Nat) :
    ∀ (order : List Nat) (accW accT : List (List Nat)),
      accW.length = accT.length →
      (∀ n ∈ order, n < templates.length ∧ templates.getD n 0 < routes.length ∧
        routeOf templates routes n < accW.length) →
      runPartitionAux (List.range templates.length) templates routes (accW, accT) order =
        Except.ok
          ((List.range accW.length).map (fun r =>
             accW.getD r [] ++ order.filter (fun n => routeOf templates routes n == r)),
           (List.range accT.length).map (fun r =>
             accT.getD r [] ++ (order.filter (fun n =>
               routeOf templates routes n == r)).map (fun n => templates.getD n 0))) := by
  intro order
  induction order with
  | nil =>
    intro accW accT _ _
    simp only [runPartitionAux, List.filter_nil, List.map_nil, List.append_nil,
      map_getD_range]
  | cons n rest ih =>
    intro accW accT hlen hall
    obtain ⟨hn, ht, hr⟩ := hall n (by simp)
    have hrT : routeOf templates routes n < accT.length := hlen ▸ hr
    have hnr : n < (List.range templates.length).length := by simpa using hn
    have hstep : partitionStep (List.range templates.length) templates routes (accW, accT) n =
        Except.ok
          (accW.set (routeOf templates routes n)
            (accW.getD (routeOf templates routes n) [] ++ [n]),
           accT.set (routeOf templates routes n)
            (accT.getD (routeOf templates routes n) [] ++ [templates.getD n 0])) := by
      simp only [partitionStep, routeOf,
        pyIndexNat_eq_ok (List.range templates.length) n 0 hnr,
        pyIndexNat_eq_ok templates n 0 hn,
        pyIndexNat_eq_ok routes (templates.getD n 0) 0 ht,
        pyIndexNat_eq_ok accW (routes.getD (templates.getD n 0) 0) []
          (by simpa [routeOf] using hr),
        pyIndexNat_eq_ok accT (routes.getD (templates.getD n 0) 0) []
          (by simpa [routeOf] using hrT),
        exceptBindOk]
      rw [List.getD_eq_getElem?_getD (List.range templates.length),
        List.getElem?_range hn]
      rfl
    have hall' : ∀ m ∈ rest, m < templates.length ∧ templates.getD m 0 < routes.length ∧
        routeOf templates routes m < (accW.set (routeOf templates routes n)
          (accW.getD (routeOf templates routes n) [] ++ [n])).length := by
      intro m hm
      obtain ⟨h1, h2, h3⟩ := hall m (by simp [hm])
      exact ⟨h1, h2, by simpa using h3⟩
    rw [runPartitionAux]
    simp only [hstep]
    rw [ih _ _ (by simp [hlen]) hall']
    rw [Except.ok.injEq, Prod.mk.injEq]
    constructor
    · rw [List.length_set]
      apply List.map_congr_left
      intro r hmem
      rw [List.mem_range] at hmem
      rw [List.filter_cons]
      by_cases hreq : routeOf templates routes n = r
      · rw [if_pos (by simp [hreq])]
        have hset : (accW.set (routeOf templates routes n)
            (accW.getD (routeOf templates routes n) [] ++ [n])).getD r [] =
            accW.getD r [] ++ [n] := by
          subst hreq
          simp [List.getD_eq_getElem?_getD, List.getElem?_set_self hr]
        rw [hset, List.append_assoc, List.singleton_append]
      · rw [if_neg (by simp [hreq])]
        have hset : (accW.set (routeOf templates routes n)
            (accW.getD (routeOf templates routes n) [] ++ [n])).getD r [] =
            accW.getD r [] := by
          simp [List.getD_eq_getElem?_getD, List.getElem?_set_ne hreq]
        rw [hset]
    · rw [List.length_set]
      apply List.map_congr_left
      intro r hmem
      rw [List.mem_range] at hmem
      rw [List.filter_cons]
      by_cases hreq : routeOf templates routes n = r
      · rw [if_pos (by simp [hreq])]
        have hset : (accT.set (routeOf templates routes n)
            (accT.getD (routeOf templates routes n) [] ++ [templates.getD n 0])).getD r [] =
            accT.getD r [] ++ [templates.getD n 0] := by
          subst hreq
          simp [List.getD_eq_getElem?_getD, List.getElem?_set_self hrT]
        rw [hset, List.map_cons, List.append_assoc, List.singleton_append]
      · rw [if_neg (by simp [hreq])]
        have hset : (accT.set (routeOf templates routes n)
            (accT.getD (routeOf templates routes n) [] ++ [templates.getD n 0])).getD r [] =
            accT.getD r [] := by
          simp [List.getD_eq_getElem?_getD, List.getElem?_set_ne hreq]
        rw [hset]

/-- Classifying a list by every possible key value and concatenating the
classes is a permutation of the list. -/
theorem flatten_filter_perm (f : Nat → Nat) :
    ∀ (k : Nat) (l : List Nat), (∀ n ∈ l, f n < k) →
      (((List.range k).map (fun r => l.filter (fun n => f n == r))).flatten).Perm l := by
  intro k
  induction k with
  | zero =>
    intro l hl
    cases l with
    | nil => simp
    | cons n rest => exact absurd (hl n (by simp)) (by omega)
  | succ k ih =>
    intro l hl
    rw [List.range_succ, List.map_append, List.flatten_append]
    simp only [List.map_cons, List.map_nil, List.flatten_cons, List.flatten_nil,
      List.append_nil]
    have hmapeq : (List.range k).map (fun r => l.filter (fun n => f n == r)) =
        (List.range k).map (fun r =>
          (l.filter (fun n => !(f n == k))).filter (fun n => f n == r)) := by
      apply List.map_congr_left
      intro r hmem
      rw [List.mem_range] at hmem
      rw [List.filter_filter]
      apply List.filter_congr
      intro n _
      by_cases hfn : f n = r
      · have hrk : r ≠ k := Nat.ne_of_lt hmem
        simp [hfn, hrk]
      · simp [hfn]
    rw [hmapeq]
    have hl' : ∀ n ∈ l.filter (fun n => !(f n == k)), f n < k := by
      intro n hn
      rw [List.mem_filter] at hn
      have h1 := hl n hn.1
      have h2 : ¬(f n = k) := by simpa using hn.2
      omega
    have hperm := ih (l.filter (fun n => !(f n == k))) hl'
    refine (hperm.append_right (l.filter (fun n => f n == k))).trans ?_
    have := List.filter_append_perm (fun n => !(f n == k)) l
    simpa [Bool.not_not] using this

/-- C3.  For every corpus and routing table that covers it, the partition
step of `run()` succeeds and produces per-replica sub-workloads that are:
characterized as the in-order filters of the shuffled order by routed
replica; pairwise disjoint; jointly a permutation of the full shuffled
instance list (multiset union equals the shuffled instance set); placed
according to `routes[templates[n]]`; and each a sublist of the shuffled
order (stable partition, no re-sorting).  The corpus is instantiated with
`queries = range(len(templates))` so that the partitioned payloads are the
instance indices themselves. -/
theorem C3_partition_correct (templates routes : List Nat) (nReplicas : Nat)
    (order : List Nat)
    (hall : ∀ n ∈ order, n < templates.length ∧ templates.getD n 0 < routes.length ∧
      routeOf templates routes n < nReplicas) :
    ∃ W T, runPartition (List.range templates.length) templates routes nReplicas order
        = Except.ok (W, T) ∧
      W = (List.range nReplicas).map (fun r =>
        order.filter (fun n => routeOf templates routes n == r)) ∧
      (∀ r s, r ≠ s → ∀ n, n ∈ W.getD r [] → n ∉ W.getD s []) ∧
      W.flatten.Perm order ∧
      (∀ r, ∀ n, n ∈ W.getD r [] → routeOf templates routes n = r) ∧
      (∀ r, (W.getD r []).Sublist order) := by
  have hbase := runPartitionAux_eq templates routes order
    (List.replicate nReplicas []) (List.replicate nReplicas [])
    (by simp) (by simpa using hall)
  rw [List.length_replicate] at hbase
  have hrepl : ∀ r : Nat, (List.replicate nReplicas ([] : List Nat)).getD r [] = [] := by
    intro r
    rcases Nat.lt_or_ge r nReplicas with h | h
    · simp [List.getD_eq_getElem?_getD, List.getElem?_replicate, h]
    · have hle : (List.replicate nReplicas ([] : List Nat)).length ≤ r := by simpa using h
      simp [List.getD_eq_getElem?_getD, List.getElem?_eq_none hle]
  have hsimp : ∀ (g : Nat → List Nat), (List.range nReplicas).map
      (fun r => (List.replicate nReplicas ([] : List Nat)).getD r [] ++ g r) =
      (List.range nReplicas).map g := by
    intro g
    apply List.map_congr_left
    intro r _
    rw [hrepl r, List.nil_append]
  rw [hsimp, hsimp] at hbase
  set W := (List.range nReplicas).map (fun r =>
    order.filter (fun n => routeOf templates routes n == r)) with hWdef
  have hWget : ∀ r, W.getD r [] =
      if r < nReplicas then order.filter (fun n => routeOf templates routes n == r)
      else [] := by
    intro r
    rcases Nat.lt_or_ge r nReplicas with h | h
    · rw [if_pos h, hWdef, List.getD_eq_getElem?_getD, List.getElem?_map,
        List.getElem?_range h]
      rfl
    · have hle : ((List.range nReplicas).map (fun r =>
          order.filter (fun n => routeOf templates routes n == r))).length ≤ r := by
        simpa using h
      rw [if_neg (by omega), hWdef, List.getD_eq_getElem?_getD,
        List.getElem?_eq_none hle]
      rfl
  refine ⟨W, (List.range nReplicas).map (fun r =>
      (order.filter (fun n => routeOf templates routes n == r)).map
        (fun n => templates.getD n 0)), ?_, rfl, ?_, ?_, ?_, ?_⟩
  · rw [runPartition]
    exact hbase
  · intro r s hrs n hnr hns
    rw [hWget r] at hnr
    rw [hWget s] at hns
    by_cases hr : r < nReplicas
    · by_cases hs : s < nReplicas
      · rw [if_pos hr] at hnr
        rw [if_pos hs] at hns
        rw [List.mem_filter] at hnr hns
        have h1 : routeOf templates routes n = r := by simpa using hnr.2
        have h2 : routeOf templates routes n = s := by simpa using hns.2
        exact hrs (h1 ▸ h2)
      · rw [if_neg hs] at hns
        simp at hns
    · rw [if_neg hr] at hnr
      simp at hnr
  · rw [hWdef]
    exact flatten_filter_perm (routeOf templates routes) nReplicas order
      (fun n hn => (hall n hn).2.2)
  · intro r n hnr
    rw [hWget r] at hnr
    by_cases hr : r < nReplicas
    · rw [if_pos hr, List.mem_filter] at hnr
      simpa using hnr.2
    · rw [if_neg hr] at hnr
      simp at hnr
  · intro r
    rw [hWget r]
    by_cases hr : r < nReplicas
    · rw [if_pos hr]
      exact List.filter_sublist order
    · rw [if_neg hr]
      exact List.nil_sublist order

/-- Witness for C3: the concrete corpus with two instances of templates
`0` and `1`, the routing table sending template `0` to replica `1` and
template `1` to replica `0`, and the shuffled order `[1, 0]`. -/
theorem C3_partition_correct_witness :
    (∀ n ∈ [1, 0], n < ([0, 1] : List Nat).length ∧
      ([0, 1] : List Nat).getD n 0 < ([1, 0] : List Nat).length ∧
      routeOf [0, 1] [1, 0] n < 2) ∧
    ∃ W T, runPartition (List.range ([0, 1] : List Nat).length) [0, 1] [1, 0] 2 [1, 0]
        = Except.ok (W, T) ∧
      W = (List.range 2).map (fun r =>
        ([1, 0] : List Nat).filter (fun n => routeOf [0, 1] [1, 0] n == r)) ∧
      (∀ r s, r ≠ s → ∀ n, n ∈ W.getD r [] → n ∉ W.getD s []) ∧
      W.flatten.Perm [1, 0] ∧
      (∀ r, ∀ n, n ∈ W.getD r [] → routeOf [0, 1] [1, 0] n = r) ∧
      (∀ r, (W.getD r []).Sublist [1, 0]) :=
  ⟨by decide, C3_partition_correct [0, 1] [1, 0] 2 [1, 0] (by decide)⟩
